import Mathlib

/-!
Verification development for the gym-analytics RAG chat subsystem:
`serving/knowledge_base.py` (class `KnowledgeBase`),
`services/ml/serving/chat_engine.py` (class `ChatEngine`) and
`serving/llm_client.py` (class `LLMClient`).

Modelling conventions:
* Floating-point similarity scores are abstracted as rationals (`ℚ`).
* scikit-learn's `TfidfVectorizer` is an external library.  Its fitted state
  is abstracted as the vector map `String → List ℚ` it induces; since
  `TfidfVectorizer` L2-normalizes its output vectors, `cosine_similarity`
  of two such vectors equals their dot product, which is how scores are
  computed here.
* `np.argsort` is modelled as an ascending insertion sort of the index
  list; `[::-1]` is `List.reverse`.  numpy's default `kind='quicksort'`
  (introsort) agrees with this model on the ordering by score, but it is
  unstable: it guarantees no particular order among equal scores except on
  small arrays, where it degenerates to exactly this insertion sort.
  Accordingly, every theorem below about equal-score tie order is stated
  only for two-document score lists (squarely inside that small-array
  regime, where the model is exact); all other theorems are invariant under
  the order of equal scores.
* Wall-clock time (`time.perf_counter`) is an external input, threaded in as
  an `elapsed` parameter.
* Network I/O of `LLMClient` is abstracted at the transport boundary: the
  blocking call returns either a response body or a connection failure, the
  streaming call returns the parsed frames (or a connection failure).
-/

namespace GymSpec

/-- Metadata attached to one document by `KnowledgeBase.add`:
`{"category": category, "source": source}`. -/
structure DocMeta where
  category : String
  source : String
  deriving DecidableEq

/-- One element of the list returned by `KnowledgeBase.query`:
`{"text": ..., "score": ..., "metadata": ...}`.  The `round(float(...), 4)`
display rounding of the score is not modelled (floats are abstracted as
rationals). -/
structure QueryResult where
  text : String
  score : ℚ
  metadata : DocMeta
  deriving DecidableEq

/-- State of `KnowledgeBase` (`serving/knowledge_base.py`).
`vectorizer` abstracts the fitted `TfidfVectorizer` as the query-vector map
it induces; `tfidf_matrix` holds one (L2-normalized, hence dot-product ready)
row vector per document.  Both are `None` until `build_index`. -/
structure KnowledgeBase where
  documents : List String
  metadata : List DocMeta
  vectorizer : Option (String → List ℚ)
  tfidf_matrix : Option (List (List ℚ))

/-- `KnowledgeBase.__init__`: empty store, no fitted model. -/
def KnowledgeBase.init : KnowledgeBase := ⟨[], [], none, none⟩

/-- `KnowledgeBase.add`: append the text and its metadata. -/
def KnowledgeBase.add (kb : KnowledgeBase) (text category source : String) : KnowledgeBase :=
  { kb with
    documents := kb.documents ++ [text]
    metadata := kb.metadata ++ [⟨category, source⟩] }

/-- `KnowledgeBase.build_index`: `fit_transform` is performed by
scikit-learn (external); the fitted vectorizer is abstracted as the map `f`,
and the fitted matrix has one row per document, namely the vector of that
document — preserving the row `i` ↔ document `i` correspondence. -/
def KnowledgeBase.build_index (kb : KnowledgeBase) (f : String → List ℚ) : KnowledgeBase :=
  { kb with
    vectorizer := some f
    tfidf_matrix := some (kb.documents.map f) }

/-- Dot product; equals `cosine_similarity` on the L2-normalized tf-idf
vectors produced by scikit-learn. -/
def dot (u v : List ℚ) : ℚ := (List.zipWith (· * ·) u v).sum

/-- Score of index `i` in a score list (`scores[i]`); total version of the
numpy indexing, defaulting to `0` out of range (never reached on the
in-range indices produced by `argsort`). -/
def scoreAt (s : List ℚ) (i : Nat) : ℚ := (s.get? i).getD 0

/-- One step of the ascending insertion sort modelling `np.argsort(scores)`:
insert index `i` after all already-placed indices of score ≤ its own. -/
def insertAsc (s : List ℚ) (i : Nat) : List Nat → List Nat
  | [] => [i]
  | j :: js => if scoreAt s i < scoreAt s j then i :: j :: js else j :: insertAsc s i js

/-- `np.argsort(scores)`: indices of `scores` sorted ascending by score.
This insertion sort matches numpy's default sort exactly on small arrays;
for larger arrays numpy's unstable quicksort may order *equal* scores
differently, so only the by-score ordering — not the tie order — of this
model is relied on outside the two-element case. -/
def argsortAsc (s : List ℚ) : List Nat :=
  (List.range s.length).foldl (fun acc i => insertAsc s i acc) []

/-- `np.argsort(scores)[::-1]`. -/
def argsortDesc (s : List ℚ) : List Nat := (argsortAsc s).reverse

/-- `cosine_similarity(q_vec, self.tfidf_matrix).flatten()`:
one similarity per matrix row; `[]` while unbuilt. -/
def KnowledgeBase.scoresFor (kb : KnowledgeBase) (question : String) : List ℚ :=
  match kb.vectorizer, kb.tfidf_matrix with
  | some f, some M => M.map (fun row => dot (f question) row)
  | _, _ => []

/-- The indices `KnowledgeBase.query` keeps: `np.argsort(scores)[::-1][:top_k]`
filtered by the relevance floor `scores[i] > 0.02`. -/
def KnowledgeBase.queryIdx (kb : KnowledgeBase) (question : String) (top_k : Nat) : List Nat :=
  ((argsortDesc (kb.scoresFor question)).take top_k).filter
    (fun i => decide ((1 / 50 : ℚ) < scoreAt (kb.scoresFor question) i))

/-- `KnowledgeBase.query`: `[]` when `self.vectorizer is None or
self.tfidf_matrix is None`; otherwise the kept indices rendered as result
dicts (the list indexing `self.documents[i]` / `self.metadata[i]` is made
total with defaults, unreachable for in-range indices). -/
def KnowledgeBase.query (kb : KnowledgeBase) (question : String) (top_k : Nat) :
    List QueryResult :=
  if kb.vectorizer.isNone || kb.tfidf_matrix.isNone then []
  else
    (kb.queryIdx question top_k).map (fun i =>
      ⟨kb.documents.getD i "", scoreAt (kb.scoresFor question) i, kb.metadata.getD i ⟨"", ""⟩⟩)

/-- `FileNotFoundError`, as raised by `joblib.load` / `open` on a missing
artifact inside `KnowledgeBase.load`. -/
inductive LoadError where
  | fileNotFound
  deriving DecidableEq

/-- The knowledge-base artifact directory.  Outer `Option` = file presence;
`joblib` files store the (possibly `None`) field value, `documents.json`
stores the two parallel arrays. -/
structure KBDir where
  tfidf_vectorizer_joblib : Option (Option (String → List ℚ))
  tfidf_matrix_joblib : Option (Option (List (List ℚ)))
  documents_json : Option (List String × List DocMeta)

/-- `KnowledgeBase.save`: writes all three artifacts. -/
def KnowledgeBase.save (kb : KnowledgeBase) : KBDir :=
  ⟨some kb.vectorizer, some kb.tfidf_matrix, some (kb.documents, kb.metadata)⟩

/-- `KnowledgeBase.load`: loads the three artifacts in source order,
failing with `FileNotFoundError` on the first missing one; only a fully
loaded `KnowledgeBase` is ever returned (no partial restore). -/
def KnowledgeBase.load (d : KBDir) : Except LoadError KnowledgeBase :=
  match d.tfidf_vectorizer_joblib with
  | none => Except.error LoadError.fileNotFound
  | some v =>
    match d.tfidf_matrix_joblib with
    | none => Except.error LoadError.fileNotFound
    | some m =>
      match d.documents_json with
      | none => Except.error LoadError.fileNotFound
      | some dj => Except.ok ⟨dj.1, dj.2, v, m⟩

/-! ## LLMClient (`serving/llm_client.py`), abstracted at the transport -/

/-- Outcome of the HTTP `POST {base}/api/generate` issued by
`LLMClient._ollama_generate`: either a 200 body's `response` field, or
`requests.ConnectionError`. -/
inductive OllamaTransport where
  | ok (response : String)
  | connRefused

/-- The operator-facing remediation text of the typed `ConnectionError`
raised by `LLMClient._ollama_generate` on transport failure. -/
def ollamaRemediation : String :=
  "Ollama is not running. Start it:\n  1. Install: https://ollama.com/download\n  2. Run: ollama serve\n  3. Pull model: ollama pull llama3.2:3b"

/-- `LLMClient._ollama_generate`: on success the body's `response` field,
stripped; on `requests.ConnectionError` a typed `ConnectionError`
(modelled as `Except.error`) carrying the remediation text. -/
def ollamaGenerate (t : OllamaTransport) : Except String String :=
  match t with
  | .ok response => Except.ok response.trim
  | .connRefused => Except.error ollamaRemediation

/-- Outcome of the streaming HTTP request of `LLMClient._ollama_stream`:
either the parsed newline-delimited JSON frames — each carrying an optional
`response` token and a `done` flag — or `requests.ConnectionError` at
request time. -/
inductive OllamaStreamTransport where
  | frames (fs : List (Option String × Bool))
  | connRefused

/-- The single error fragment `_ollama_stream` yields on connection
failure. -/
def ollamaStreamErrorMsg : String :=
  "[Error] Ollama is not running. Install from https://ollama.com and run: ollama serve"

/-- The frame loop of `_ollama_stream`: yield the frame's `response` token
when present and non-empty (the walrus-truthiness test), then stop after a
`done` frame. -/
def collectFrames : List (Option String × Bool) → List String
  | [] => []
  | (r, d) :: rest =>
    let toks := match r with
      | some t => if t = "" then [] else [t]
      | none => []
    if d then toks else toks ++ collectFrames rest

/-- `LLMClient._ollama_stream`: token fragments from the frames, or the
single descriptive error fragment — it never raises to its consumer. -/
def ollamaStream (t : OllamaStreamTransport) : List String :=
  match t with
  | .frames fs => collectFrames fs
  | .connRefused => [ollamaStreamErrorMsg]

/-! ## ChatEngine (`services/ml/serving/chat_engine.py`) -/

/-- Python's `sep.join(xs)`. -/
def joinSep (sep : String) : List String → String
  | [] => ""
  | [x] => x
  | x :: xs => x ++ sep ++ joinSep sep xs

/-- What the engine observes of `self.llm` per call, as a function of
`(prompt, system)`: the blocking `generate` result (`Except.error` = the
typed `ConnectionError` it may raise), the token sequence produced by
`stream` together with an optional `ConnectionError` message raised during
iteration, and the client's `model` / `provider` identity. -/
structure Backend where
  gen : String → String → Except String String
  stream : String → String → List String × Option String
  model : String
  provider : String

/-- Tokens the `for token in self.llm.stream(...)` loop sees, followed by
the error message substituted by the `except ConnectionError` handler when
iteration raised one. -/
def streamTexts (so : List String × Option String) : List String :=
  so.1 ++ (match so.2 with
    | some m => [m]
    | none => [])

/-- One entry of `self.conversations[session_id]`. -/
structure ChatMsg where
  role : String
  content : String
  deriving DecidableEq

/-- The dict returned by `ChatEngine.chat`. -/
structure ChatResponse where
  response : String
  context_used : Bool
  chunks_retrieved : Nat
  inference_ms : ℚ
  model : String
  provider : String

/-- Payload of one SSE line yielded by `ChatEngine.stream_chat`: either a
`{"token": ...}` object or the terminal
`{"done": true, "inference_ms": ..., "model": ...}` object. -/
inductive SSEvent where
  | token (text : String)
  | done (inference_ms : ℚ) (model : String)
  deriving DecidableEq

/-- `self.conversations` (dict session_id → messages), as an association
list. -/
def lookupConv : List (String × List ChatMsg) → String → Option (List ChatMsg)
  | [], _ => none
  | (k, v) :: rest, sid => if k = sid then some v else lookupConv rest sid

/-- Dict assignment `self.conversations[session_id] = c`. -/
def updateConv : List (String × List ChatMsg) → String → List ChatMsg →
    List (String × List ChatMsg)
  | [], sid, c => [(sid, c)]
  | (k, v) :: rest, sid, c =>
    if k = sid then (sid, c) :: rest else (k, v) :: updateConv rest sid c

/-- State of `ChatEngine`. -/
structure ChatEngine where
  llm : Backend
  kb : Option KnowledgeBase
  conversations : List (String × List ChatMsg)
  max_history : Nat

/-- `ChatEngine.__init__`: empty session map, `max_history = 10`. -/
def ChatEngine.init (llm : Backend) (kb : Option KnowledgeBase) : ChatEngine :=
  ⟨llm, kb, [], 10⟩

/-- `self.conversations.get(session_id, [])`. -/
def ChatEngine.conv (e : ChatEngine) (sid : String) : List ChatMsg :=
  (lookupConv e.conversations sid).getD []

/-- Store a session's messages. -/
def ChatEngine.setConv (e : ChatEngine) (sid : String) (c : List ChatMsg) : ChatEngine :=
  { e with conversations := updateConv e.conversations sid c }

/-- `ChatEngine._retrieve_context` (called with its default `top_k=6`):
`""` with no knowledge base or no results, else the retrieved chunks
rendered `[category] text` and joined by blank lines. -/
def ChatEngine.retrieveContext (e : ChatEngine) (query : String) : String :=
  match e.kb with
  | none => ""
  | some kb =>
    let results := kb.query query 6
    if results.isEmpty then ""
    else joinSep "\n\n" (results.map (fun r => "[" ++ r.metadata.category ++ "] " ++ r.text))

/-- `SYSTEM_PROMPT` of `chat_engine.py`. -/
def SYSTEM_PROMPT : String :=
  "You are **FitFlex AI**, an expert fitness and gym management assistant powered by real gym data.\n\nYour capabilities:\n- Personalized workout recommendations based on actual member demographics and performance data\n- Calorie burn predictions grounded in real exercise data\n- Progress analysis using body performance benchmarks\n- Attendance and churn risk insights from membership patterns\n- Nutrition and recovery advice backed by sports science\n\nGuidelines:\n- Always be encouraging, data-driven, and specific\n- When you reference statistics, mention they come from gym data\n- Give actionable advice with numbers (sets, reps, durations, calories)\n- If asked about a specific member, use the data context provided\n- For medical concerns, recommend consulting a healthcare professional\n- Keep responses concise but thorough — aim for 2-4 paragraphs\n- Use formatting (bold, bullets) for readability\n"

/-- `history[-self.max_history:]` for the positive `max_history` the engine
always uses (Python's `[-0:]` corner would instead keep the whole list). -/
def takeLast {α : Type} (n : Nat) (l : List α) : List α := l.drop (l.length - n)

/-- `ChatEngine._build_prompt`: optional context block, optional history
block capped to the last `max_history` turns, then the user message and the
instruction suffix, joined by newlines. -/
def ChatEngine.buildPrompt (e : ChatEngine) (message context : String)
    (history : List ChatMsg) : String :=
  let parts :=
    (if context ≠ "" then ["━━━ GYM DATA CONTEXT ━━━", context, "━━━ END CONTEXT ━━━\n"] else [])
    ++ (if history ≠ [] then
          ["━━━ CONVERSATION HISTORY ━━━"]
          ++ (takeLast e.max_history history).map (fun m =>
                (if m.role = "user" then "User" else "FitFlex AI") ++ ": " ++ m.content)
          ++ ["━━━ END HISTORY ━━━\n"]
        else [])
    ++ ["User: " ++ message, "\nRespond helpfully based on the gym data context above:"]
  joinSep "\n" parts

/-- The prompt `chat` / `stream_chat` assemble for a turn: context from
retrieval, history from the session map. -/
def ChatEngine.promptFor (e : ChatEngine) (message sid : String) : String :=
  e.buildPrompt message (e.retrieveContext message) (e.conv sid)

/-- The response text `chat` ends up with: `self.llm.generate(...)`, or the
caught `ConnectionError`'s message (`str(e)`). -/
def ChatEngine.genText (e : ChatEngine) (message sid : String) : String :=
  match e.llm.gen (e.promptFor message sid) SYSTEM_PROMPT with
  | Except.ok r => r
  | Except.error msg => msg

/-- The response text `stream_chat` records: `"".join(full_response)`. -/
def ChatEngine.streamText (e : ChatEngine) (message sid : String) : String :=
  String.join (streamTexts (e.llm.stream (e.promptFor message sid) SYSTEM_PROMPT))

/-- The history-trimming step shared by `chat` and `stream_chat`:
`conv[-self.max_history * 2:]` once the list exceeds `max_history * 2`. -/
def trimConv (m : Nat) (c : List ChatMsg) : List ChatMsg :=
  if m * 2 < c.length then c.drop (c.length - m * 2) else c

/-- `ChatEngine.chat`: retrieve, build the prompt, generate (degrading a
`ConnectionError` into response content), append the user/assistant pair to
the session and trim it, and return the response dict.  Note
`chunks_retrieved` re-queries the knowledge base with `query`'s default
`top_k` of 8. -/
def ChatEngine.chat (e : ChatEngine) (elapsed : ℚ) (message sid : String) :
    ChatResponse × ChatEngine :=
  let response := e.genText message sid
  (⟨response,
    decide (0 < (e.retrieveContext message).length),
    (match e.kb with
     | some kb => (kb.query message 8).length
     | none => 0),
    elapsed, e.llm.model, e.llm.provider⟩,
   e.setConv sid (trimConv e.max_history
     (e.conv sid ++ [⟨"user", message⟩, ⟨"assistant", response⟩])))

/-- `ChatEngine.stream_chat`: same retrieval and prompt assembly; yields one
token event per streamed token (plus one for the substituted error message
if iteration raised `ConnectionError`), records the concatenation into the
session under the same trimming rule, and ends with the single terminal
`done` event carrying elapsed time and model identity. -/
def ChatEngine.streamChat (e : ChatEngine) (elapsed : ℚ) (message sid : String) :
    List SSEvent × ChatEngine :=
  let texts := streamTexts (e.llm.stream (e.promptFor message sid) SYSTEM_PROMPT)
  (texts.map SSEvent.token ++ [SSEvent.done elapsed e.llm.model],
   e.setConv sid (trimConv e.max_history
     (e.conv sid ++ [⟨"user", message⟩, ⟨"assistant", String.join texts⟩])))

/-- One completed conversational turn against the engine. -/
inductive Turn where
  | chatTurn (elapsed : ℚ) (message sid : String)
  | streamTurn (elapsed : ℚ) (message sid : String)

/-- The session a turn addresses. -/
def Turn.sid : Turn → String
  | .chatTurn _ _ s => s
  | .streamTurn _ _ s => s

/-- The user message of a turn. -/
def Turn.message : Turn → String
  | .chatTurn _ m _ => m
  | .streamTurn _ m _ => m

/-- The assistant text a turn records into the session. -/
def ChatEngine.turnResponse (e : ChatEngine) : Turn → String
  | .chatTurn _ m s => e.genText m s
  | .streamTurn _ m s => e.streamText m s

/-- Run one turn to completion, keeping the resulting engine state. -/
def ChatEngine.applyTurn (e : ChatEngine) : Turn → ChatEngine
  | .chatTurn el m s => (e.chat el m s).2
  | .streamTurn el m s => (e.streamChat el m s).2

/-- Run a sequence of turns to completion. -/
def ChatEngine.runTurns (e : ChatEngine) : List Turn → ChatEngine
  | [] => e
  | t :: ts => (e.applyTurn t).runTurns ts

/-! ## Ordering facts about the argsort model -/

/-- Ascending lexicographic order on (score, index): the order in which the
stable ascending argsort lists its indices. -/
def ascLex (s : List ℚ) (a b : Nat) : Prop :=
  scoreAt s a < scoreAt s b ∨ (scoreAt s a = scoreAt s b ∧ a < b)

theorem mem_insertAsc {s : List ℚ} {i a : Nat} :
    ∀ {l : List Nat}, a ∈ insertAsc s i l ↔ a = i ∨ a ∈ l := by
  intro l
  induction l with
  | nil => simp [insertAsc]
  | cons j js ih =>
    simp only [insertAsc]
    split
    · simp [List.mem_cons]
    · simp only [List.mem_cons, ih]
      tauto

theorem insertAsc_pairwise {s : List ℚ} {i : Nat} :
    ∀ {l : List Nat}, l.Pairwise (ascLex s) → (∀ j ∈ l, j < i) →
      (insertAsc s i l).Pairwise (ascLex s) := by
  intro l
  induction l with
  | nil =>
    intro _ _
    simp [insertAsc, List.Pairwise]
  | cons j js ih =>
    intro hp hlt
    rw [List.pairwise_cons] at hp
    simp only [insertAsc]
    split
    · rename_i hij
      refine List.Pairwise.cons ?_ (List.Pairwise.cons hp.1 hp.2)
      intro x hx
      rcases List.mem_cons.mp hx with rfl | hx2
      · exact Or.inl hij
      · rcases hp.1 x hx2 with h1 | ⟨h1, _⟩
        · exact Or.inl (hij.trans h1)
        · exact Or.inl (hij.trans_le (le_of_eq h1))
    · rename_i hij
      have hji : scoreAt s j ≤ scoreAt s i := not_lt.mp hij
      refine List.Pairwise.cons ?_ (ih hp.2 (fun x hx => hlt x (List.mem_cons_of_mem _ hx)))
      intro x hx
      rcases mem_insertAsc.mp hx with rfl | hx2
      · rcases lt_or_eq_of_le hji with h | h
        · exact Or.inl h
        · exact Or.inr ⟨h, hlt j (List.mem_cons_self _ _)⟩
      · exact hp.1 x hx2

theorem foldl_insert_pairwise {s : List ℚ} :
    ∀ (idxs acc : List Nat), acc.Pairwise (ascLex s) → idxs.Pairwise (· < ·) →
      (∀ j ∈ acc, ∀ i ∈ idxs, j < i) →
      (idxs.foldl (fun a i => insertAsc s i a) acc).Pairwise (ascLex s) := by
  intro idxs
  induction idxs with
  | nil => intro acc h _ _; exact h
  | cons i rest ih =>
    intro acc hacc hidxs hb
    simp only [List.foldl_cons]
    apply ih
    · exact insertAsc_pairwise hacc (fun j hj => hb j hj i (List.mem_cons_self _ _))
    · exact (List.pairwise_cons.mp hidxs).2
    · intro j hj i2 hi2
      rcases mem_insertAsc.mp hj with rfl | hj2
      · exact (List.pairwise_cons.mp hidxs).1 i2 hi2
      · exact hb j hj2 i2 (List.mem_cons_of_mem _ hi2)

theorem argsortAsc_pairwise (s : List ℚ) : (argsortAsc s).Pairwise (ascLex s) := by
  apply foldl_insert_pairwise
  · exact List.Pairwise.nil
  · exact List.pairwise_lt_range _
  · intro j hj
    simp at hj

theorem argsortDesc_pairwise (s : List ℚ) :
    (argsortDesc s).Pairwise (fun a b => ascLex s b a) := by
  rw [argsortDesc, List.pairwise_reverse]
  exact argsortAsc_pairwise s

theorem queryIdx_sublist_argsortDesc (kb : KnowledgeBase) (q : String) (k : Nat) :
    (kb.queryIdx q k).Sublist (argsortDesc (kb.scoresFor q)) := by
  unfold KnowledgeBase.queryIdx
  exact (List.filter_sublist _).trans (List.take_sublist _ _)

theorem queryIdx_pairwise (kb : KnowledgeBase) (q : String) (k : Nat) :
    (kb.queryIdx q k).Pairwise (fun i j => ascLex (kb.scoresFor q) j i) :=
  (argsortDesc_pairwise _).sublist (queryIdx_sublist_argsortDesc kb q k)

theorem scoreAt_le_of_forall {S : List ℚ} {c : ℚ} (h0 : 0 ≤ c)
    (h : ∀ x ∈ S, x ≤ c) (i : Nat) : scoreAt S i ≤ c := by
  unfold scoreAt
  cases hg : S.get? i with
  | none => simpa using h0
  | some v => simpa using h v (List.get?_mem hg)

theorem query_build_eq (kb : KnowledgeBase) (f : String → List ℚ) (q : String) (k : Nat) :
    (kb.build_index f).query q k
      = ((kb.build_index f).queryIdx q k).map (fun i =>
          ⟨(kb.build_index f).documents.getD i "",
           scoreAt ((kb.build_index f).scoresFor q) i,
           (kb.build_index f).metadata.getD i ⟨"", ""⟩⟩) := by
  simp [KnowledgeBase.query, KnowledgeBase.build_index]

/-! ## Claim theorems: KnowledgeBase retrieval -/

/-- C1.  For every built index (any document store with a fitted vectorizer
and matrix, i.e. any result of `build_index`), any query string and any
`top_k`, `query` returns at most `top_k` results, every returned score —
the cosine similarity of the query to that document — is strictly above the
relevance floor `0.02 = 1/50`, the results are ordered by non-increasing
similarity, and when no document's similarity clears the floor the result
is empty.  `query` is a total function, so no error is ever raised. -/
theorem query_contract (kb : KnowledgeBase) (f : String → List ℚ) (q : String) (k : Nat) :
    ((kb.build_index f).query q k).length ≤ k
    ∧ (∀ r ∈ (kb.build_index f).query q k, (1 / 50 : ℚ) < r.score)
    ∧ ((kb.build_index f).query q k).Pairwise (fun r r2 => r2.score ≤ r.score)
    ∧ ((∀ x ∈ (kb.build_index f).scoresFor q, x ≤ (1 / 50 : ℚ)) →
        (kb.build_index f).query q k = []) := by
  rw [query_build_eq]
  refine ⟨?_, ?_, ?_, ?_⟩
  · rw [List.length_map]
    calc ((kb.build_index f).queryIdx q k).length
        ≤ ((argsortDesc ((kb.build_index f).scoresFor q)).take k).length :=
          List.length_filter_le _ _
      _ ≤ k := List.length_take_le _ _
  · intro r hr
    rcases List.mem_map.mp hr with ⟨i, hi, rfl⟩
    have := (List.mem_filter.mp hi).2
    simpa using of_decide_eq_true this
  · rw [List.pairwise_map]
    refine (queryIdx_pairwise _ q k).imp ?_
    intro i j h
    rcases h with h | ⟨h, _⟩
    · exact le_of_lt h
    · exact le_of_eq h
  · intro hall
    have : (kb.build_index f).queryIdx q k = [] := by
      apply List.filter_eq_nil_iff.mpr
      intro i _
      simp only [decide_eq_true_eq, not_lt]
      exact scoreAt_le_of_forall (by norm_num) hall i
    rw [KnowledgeBase.queryIdx] at this
    rw [KnowledgeBase.queryIdx, this, List.map_nil]

/-- C1 witness: a concrete two-document built index; `query` keeps the one
document above the floor, in order, within the bound. -/
theorem query_contract_witness :
    ((KnowledgeBase.mk ["cardio", "yoga"] [⟨"g", "0"⟩, ⟨"g", "1"⟩] none none).build_index
        (fun s => if s = "cardio" then [1] else if s = "yoga" then [1 / 100] else [1])).query
        "how many calories" 8
      = [⟨"cardio", 1, ⟨"g", "0"⟩⟩] ∧ (1 / 50 : ℚ) < 1 := by
  have hq : ((KnowledgeBase.mk ["cardio", "yoga"] [⟨"g", "0"⟩, ⟨"g", "1"⟩] none none).build_index
      (fun s => if s = "cardio" then [1] else if s = "yoga" then [1 / 100] else [1])).query
      "how many calories" 8 = [⟨"cardio", 1, ⟨"g", "0"⟩⟩] := by
    norm_num +decide [KnowledgeBase.query, KnowledgeBase.queryIdx, KnowledgeBase.scoresFor,
      KnowledgeBase.build_index, argsortDesc, argsortAsc, insertAsc, scoreAt, dot,
      List.range_succ]
  refine ⟨hq, ?_⟩
  have h := query_contract
    (KnowledgeBase.mk ["cardio", "yoga"] [⟨"g", "0"⟩, ⟨"g", "1"⟩] none none)
    (fun s => if s = "cardio" then [1] else if s = "yoga" then [1 / 100] else [1])
    "how many calories" 8
  exact h.2.1 ⟨"cardio", 1, ⟨"g", "0"⟩⟩ (by rw [hq]; exact List.mem_singleton_self _)

/-- C9.  Querying an index on which `build_index` has never been invoked —
any store reachable from `__init__` by `add` calls alone, including the
zero-document store — returns `[]` for every question and `top_k`, and does
not raise: the `self.vectorizer is None or self.tfidf_matrix is None` guard
short-circuits. -/
theorem query_before_build (items : List (String × String × String)) (q : String) (k : Nat) :
    (items.foldl (fun kb it => kb.add it.1 it.2.1 it.2.2) KnowledgeBase.init).query q k = [] := by
  have hnone : ∀ kb : KnowledgeBase, kb.vectorizer = none →
      (items.foldl (fun kb it => kb.add it.1 it.2.1 it.2.2) kb).vectorizer = none := by
    induction items with
    | nil => intro kb h; exact h
    | cons it rest ih =>
      intro kb h
      exact ih (kb.add it.1 it.2.1 it.2.2) h
  have h := hnone KnowledgeBase.init rfl
  rw [KnowledgeBase.query, h]
  simp

/-- C8 counterexample.  Two documents with equal similarity (`1` each); the
claim "among equally-scored documents, the one added earlier appears
earlier" fails: `query` returns the later-added "B" before "A". -/
theorem query_tie_stable_false :
    ((KnowledgeBase.mk ["A", "B"] [⟨"c", "s0"⟩, ⟨"c", "s1"⟩] (some (fun _ => [1]))
        (some [[1], [1]])).query "q" 8).map (fun r => r.text) = ["B", "A"]
    ∧ (KnowledgeBase.mk ["A", "B"] [⟨"c", "s0"⟩, ⟨"c", "s1"⟩] (some (fun _ => [1]))
        (some [[1], [1]])).scoresFor "q" = [1, 1] := by
  constructor
  · norm_num [KnowledgeBase.query, KnowledgeBase.queryIdx, KnowledgeBase.scoresFor,
      argsortDesc, argsortAsc, insertAsc, scoreAt, dot, List.range_succ]
  · norm_num [KnowledgeBase.scoresFor, dot]

/-- C8 as amended.  `query` does not break equal-score ties by original
insertion order.  Positively, in the two-document equal-score case — an
array size on which numpy's default sort is deterministically its
insertion sort, so the `argsortAsc` model is exact — the tie comes out in
*reverse* insertion order: the later-added document is returned first.
(For larger indexes numpy's default quicksort is unstable and the program
guarantees no particular tie order, so no stronger tie rule is claimed.) -/
theorem query_tie_reverse (kb : KnowledgeBase) (f : String → List ℚ) (q : String)
    (k : Nat) (s : ℚ)
    (hsc : (kb.build_index f).scoresFor q = [s, s])
    (hfloor : (1 / 50 : ℚ) < s) (hk : 2 ≤ k) :
    (kb.build_index f).query q k
      = [⟨kb.documents.getD 1 "", s, kb.metadata.getD 1 ⟨"", ""⟩⟩,
         ⟨kb.documents.getD 0 "", s, kb.metadata.getD 0 ⟨"", ""⟩⟩] := by
  have hidx : (kb.build_index f).queryIdx q k = [1, 0] := by
    unfold KnowledgeBase.queryIdx
    rw [hsc]
    have hasc : argsortAsc [s, s] = [0, 1] := by
      unfold argsortAsc
      simp [List.range_succ, insertAsc, scoreAt]
    rw [argsortDesc, hasc, show ([0, 1] : List Nat).reverse = [1, 0] from rfl,
      List.take_of_length_le (by simpa using hk)]
    simp [scoreAt, hfloor]
    linarith
  rw [query_build_eq, hidx]
  simp only [hsc]
  simp [KnowledgeBase.build_index, scoreAt]

/-- C8 witness: both documents of a two-document built index score `1`;
`query` returns the later-added "B" before "A". -/
theorem query_tie_reverse_witness :
    ((KnowledgeBase.mk ["A", "B"] [⟨"c", "s0"⟩, ⟨"c", "s1"⟩] none none).build_index
        (fun _ => [1])).query "q" 8
      = [⟨"B", 1, ⟨"c", "s1"⟩⟩, ⟨"A", 1, ⟨"c", "s0"⟩⟩] := by
  have h := query_tie_reverse
    (KnowledgeBase.mk ["A", "B"] [⟨"c", "s0"⟩, ⟨"c", "s1"⟩] none none)
    (fun _ => [1]) "q" 8 1
    (by norm_num [KnowledgeBase.scoresFor, KnowledgeBase.build_index, dot])
    (by norm_num) (by norm_num)
  exact h.trans rfl

/-! ## Claim theorems: persistence -/

/-- C6.  `save` followed by `load` restores the index exactly, so its
`query` results (texts, scores, metadata, order) agree with the pre-save
index on every probe query; and `load` on a directory missing any of the
three artifacts (vectorizer, matrix, documents+metadata JSON) fails with
the NotFound-style error — the partially read artifacts are discarded,
never installed into a `KnowledgeBase`. -/
theorem save_load_roundtrip (kb : KnowledgeBase) (q : String) (k : Nat) (d : KBDir)
    (hmiss : d.tfidf_vectorizer_joblib = none ∨ d.tfidf_matrix_joblib = none
      ∨ d.documents_json = none) :
    KnowledgeBase.load kb.save = Except.ok kb
    ∧ (KnowledgeBase.load kb.save).map (fun kb2 => kb2.query q k) = Except.ok (kb.query q k)
    ∧ KnowledgeBase.load d = Except.error LoadError.fileNotFound := by
  refine ⟨rfl, rfl, ?_⟩
  rcases d with ⟨v, m, dj⟩
  rcases hmiss with h | h | h
  · subst h
    rfl
  · subst h
    cases v with
    | none => rfl
    | some v2 => rfl
  · subst h
    cases v with
    | none => rfl
    | some v2 =>
      cases m with
      | none => rfl
      | some m2 => rfl

/-- C6 witness: the empty store round-trips, and a directory holding only
the matrix and documents artifacts fails to load. -/
theorem save_load_roundtrip_witness :
    KnowledgeBase.load KnowledgeBase.init.save = Except.ok KnowledgeBase.init
    ∧ (KnowledgeBase.load KnowledgeBase.init.save).map (fun kb2 => kb2.query "x" 3)
        = Except.ok (KnowledgeBase.init.query "x" 3)
    ∧ KnowledgeBase.load (KBDir.mk none (some none) (some ([], [])))
        = Except.error LoadError.fileNotFound :=
  save_load_roundtrip KnowledgeBase.init "x" 3
    (KBDir.mk none (some none) (some ([], []))) (Or.inl rfl)

/-- C10.  `add`, `build_index` and a `save`/`load` round trip all preserve
the parallel-arrays invariant `len(documents) = len(metadata)`, and every
`query` result pairs the document text with the metadata entry of the same
index (`query` itself reads the store without mutating it). -/
theorem kb_parallel_invariant (kb kb2 : KnowledgeBase)
    (text category source2 q : String) (f : String → List ℚ) (k : Nat) (r : QueryResult)
    (hwf : kb.documents.length = kb.metadata.length)
    (hload : KnowledgeBase.load kb.save = Except.ok kb2)
    (hr : r ∈ kb.query q k) :
    (kb.add text category source2).documents.length
      = (kb.add text category source2).metadata.length
    ∧ (kb.build_index f).documents.length = (kb.build_index f).metadata.length
    ∧ kb2.documents.length = kb2.metadata.length
    ∧ ∃ i, r.text = kb.documents.getD i ""
        ∧ r.metadata = kb.metadata.getD i ⟨"", ""⟩
        ∧ r.score = scoreAt (kb.scoresFor q) i := by
  refine ⟨?_, ?_, ?_, ?_⟩
  · simp [KnowledgeBase.add, hwf]
  · simpa [KnowledgeBase.build_index] using hwf
  · have h2 : (Except.ok kb : Except LoadError KnowledgeBase) = Except.ok kb2 := hload
    cases h2
    exact hwf
  · rw [KnowledgeBase.query] at hr
    split at hr
    · simp at hr
    · rcases List.mem_map.mp hr with ⟨i, _, rfl⟩
      exact ⟨i, rfl, rfl, rfl⟩

/-- C10 witness: a one-document built store; its single query result pairs
the text with the metadata entry of index 0. -/
theorem kb_parallel_invariant_witness :
    ((KnowledgeBase.mk ["d"] [⟨"c", "s"⟩] (some (fun _ => [1])) (some [[1]])).add
        "t" "c2" "s2").documents.length
      = ((KnowledgeBase.mk ["d"] [⟨"c", "s"⟩] (some (fun _ => [1])) (some [[1]])).add
        "t" "c2" "s2").metadata.length
    ∧ ((KnowledgeBase.mk ["d"] [⟨"c", "s"⟩] (some (fun _ => [1])) (some [[1]])).build_index
        (fun _ => [1])).documents.length
      = ((KnowledgeBase.mk ["d"] [⟨"c", "s"⟩] (some (fun _ => [1])) (some [[1]])).build_index
        (fun _ => [1])).metadata.length
    ∧ (KnowledgeBase.mk ["d"] [⟨"c", "s"⟩] (some (fun _ => [1]))
        (some [[1]])).documents.length
      = (KnowledgeBase.mk ["d"] [⟨"c", "s"⟩] (some (fun _ => [1]))
        (some [[1]])).metadata.length
    ∧ ∃ i, (QueryResult.mk "d" 1 ⟨"c", "s"⟩).text
          = (KnowledgeBase.mk ["d"] [⟨"c", "s"⟩] (some (fun _ => [1]))
              (some [[1]])).documents.getD i ""
        ∧ (QueryResult.mk "d" 1 ⟨"c", "s"⟩).metadata
          = (KnowledgeBase.mk ["d"] [⟨"c", "s"⟩] (some (fun _ => [1]))
              (some [[1]])).metadata.getD i ⟨"", ""⟩
        ∧ (QueryResult.mk "d" 1 ⟨"c", "s"⟩).score
          = scoreAt ((KnowledgeBase.mk ["d"] [⟨"c", "s"⟩] (some (fun _ => [1]))
              (some [[1]])).scoresFor "q") i := by
  have hq : (KnowledgeBase.mk ["d"] [⟨"c", "s"⟩] (some (fun _ => [1])) (some [[1]])).query
      "q" 8 = [⟨"d", 1, ⟨"c", "s"⟩⟩] := by
    norm_num +decide [KnowledgeBase.query, KnowledgeBase.queryIdx, KnowledgeBase.scoresFor,
      argsortDesc, argsortAsc, insertAsc, scoreAt, dot, List.range_succ]
  exact kb_parallel_invariant
    (KnowledgeBase.mk ["d"] [⟨"c", "s"⟩] (some (fun _ => [1])) (some [[1]]))
    (KnowledgeBase.mk ["d"] [⟨"c", "s"⟩] (some (fun _ => [1])) (some [[1]]))
    "t" "c2" "s2" "q" (fun _ => [1]) 8 ⟨"d", 1, ⟨"c", "s"⟩⟩ rfl rfl
    (by rw [hq]; exact List.mem_singleton_self _)

/-! ## ChatEngine session-map and trimming lemmas -/

theorem lookupConv_updateConv (l : List (String × List ChatMsg)) (sid sid2 : String)
    (c : List ChatMsg) :
    lookupConv (updateConv l sid c) sid2
      = if sid = sid2 then some c else lookupConv l sid2 := by
  induction l with
  | nil =>
    simp [updateConv, lookupConv]
  | cons kv rest ih =>
    rcases kv with ⟨k, v⟩
    simp only [updateConv]
    by_cases hk : k = sid
    · simp only [if_pos hk, lookupConv]
      by_cases h2 : sid = sid2
      · simp [h2]
      · have : ¬ k = sid2 := by
          rw [hk]
          exact h2
        simp [h2, this, lookupConv, hk]
    · simp only [if_neg hk, lookupConv]
      by_cases h3 : k = sid2
      · have : ¬ sid = sid2 := by
          intro h4
          exact hk (h4 ▸ h3)
        simp [h3, this]
      · simp [h3, ih]

theorem conv_setConv (e : ChatEngine) (sid sid2 : String) (c : List ChatMsg) :
    (e.setConv sid c).conv sid2 = if sid = sid2 then c else e.conv sid2 := by
  simp only [ChatEngine.setConv, ChatEngine.conv, lookupConv_updateConv]
  by_cases h : sid = sid2 <;> simp [h]

theorem conv_init (llm : Backend) (kb : Option KnowledgeBase) (sid : String) :
    (ChatEngine.init llm kb).conv sid = [] := rfl

/-- The session map after `chat` / `stream_chat`: the addressed session
gets the trimmed extension by the user/assistant pair, others are
untouched. -/
theorem conv_applyTurn (e : ChatEngine) (t : Turn) (sid : String) :
    (e.applyTurn t).conv sid
      = if t.sid = sid then
          trimConv e.max_history
            (e.conv t.sid ++ [⟨"user", t.message⟩, ⟨"assistant", e.turnResponse t⟩])
        else e.conv sid := by
  cases t with
  | chatTurn el m s =>
    simp only [ChatEngine.applyTurn, ChatEngine.chat, ChatEngine.turnResponse,
      Turn.sid, Turn.message]
    exact conv_setConv ..
  | streamTurn el m s =>
    simp only [ChatEngine.applyTurn, ChatEngine.streamChat, ChatEngine.turnResponse,
      ChatEngine.streamText, Turn.sid, Turn.message]
    exact conv_setConv ..

theorem applyTurn_max_history (e : ChatEngine) (t : Turn) :
    (e.applyTurn t).max_history = e.max_history := by
  cases t <;> rfl

theorem runTurns_max_history (e : ChatEngine) (ts : List Turn) :
    (e.runTurns ts).max_history = e.max_history := by
  induction ts generalizing e with
  | nil => rfl
  | cons t rest ih =>
    rw [ChatEngine.runTurns, ih, applyTurn_max_history]

theorem trimConv_length (m : Nat) (c : List ChatMsg) :
    (trimConv m c).length = if m * 2 < c.length then m * 2 else c.length := by
  unfold trimConv
  split
  · rename_i h
    simp only [List.length_drop]
    omega
  · rfl

theorem trimConv_suffix (m : Nat) (c : List ChatMsg) :
    List.IsSuffix (trimConv m c) c := by
  unfold trimConv
  split
  · exact List.drop_suffix _ _
  · exact List.suffix_refl _

/-- The per-session invariant: even length, bounded by `2 * max_history`. -/
theorem trimConv_invariant (m : Nat) (c : List ChatMsg) (u a : ChatMsg)
    (heven : c.length % 2 = 0) :
    (trimConv m (c ++ [u, a])).length % 2 = 0
    ∧ (trimConv m (c ++ [u, a])).length ≤ 2 * m := by
  have hl : (c ++ [u, a]).length = c.length + 2 := by
    simp
  rw [trimConv_length, hl]
  constructor
  · split <;> omega
  · split <;> omega

theorem goodConv_applyTurn (e : ChatEngine) (t : Turn) (sid : String)
    (h : (e.conv t.sid).length % 2 = 0)
    (h2 : (e.conv sid).length % 2 = 0 ∧ (e.conv sid).length ≤ 2 * e.max_history) :
    ((e.applyTurn t).conv sid).length % 2 = 0
    ∧ ((e.applyTurn t).conv sid).length ≤ 2 * (e.applyTurn t).max_history := by
  rw [conv_applyTurn, applyTurn_max_history]
  by_cases hs : t.sid = sid
  · rw [if_pos hs]
    exact trimConv_invariant e.max_history (e.conv t.sid) _ _ h
  · rw [if_neg hs]
    exact h2

theorem goodEngine_runTurns (e : ChatEngine) (ts : List Turn)
    (h : ∀ sid, (e.conv sid).length % 2 = 0 ∧ (e.conv sid).length ≤ 2 * e.max_history) :
    ∀ sid, ((e.runTurns ts).conv sid).length % 2 = 0
      ∧ ((e.runTurns ts).conv sid).length ≤ 2 * (e.runTurns ts).max_history := by
  induction ts generalizing e with
  | nil => exact h
  | cons t rest ih =>
    intro sid
    rw [ChatEngine.runTurns]
    refine ih (e.applyTurn t) ?_ sid
    intro sid2
    exact goodConv_applyTurn e t sid2 (h t.sid).1 (h sid2)

/-! ## Claim theorems: session memory -/

/-- C3.  Starting from a fresh engine, after any number of completed `chat`
or `stream_chat` turns every session's stored message list has even length
(user/assistant pairs) and never exceeds `2 * max_history` entries; and any
further turn changes its session only by appending the new user/assistant
pair at the end and (being a suffix of that extension) dropping entries
from the front only — FIFO eviction of the oldest entries. -/
theorem session_memory_invariant (llm : Backend) (kb : Option KnowledgeBase)
    (ts : List Turn) (t : Turn) (sid : String) :
    (((ChatEngine.init llm kb).runTurns ts).conv sid).length % 2 = 0
    ∧ (((ChatEngine.init llm kb).runTurns ts).conv sid).length
        ≤ 2 * ((ChatEngine.init llm kb).runTurns ts).max_history
    ∧ List.IsSuffix
        ((((ChatEngine.init llm kb).runTurns ts).applyTurn t).conv t.sid)
        (((ChatEngine.init llm kb).runTurns ts).conv t.sid
          ++ [⟨"user", t.message⟩,
              ⟨"assistant", ((ChatEngine.init llm kb).runTurns ts).turnResponse t⟩]) := by
  have hgood := goodEngine_runTurns (ChatEngine.init llm kb) ts
    (by
      intro sid2
      rw [conv_init]
      simp)
  refine ⟨(hgood sid).1, (hgood sid).2, ?_⟩
  rw [conv_applyTurn, if_pos rfl]
  exact trimConv_suffix _ _

/-! ## Streaming and degradation lemmas -/

theorem getLast?_cons_append_two {α : Type} (c : List α) (u a : α) :
    (c ++ [u, a]).getLast? = some a := by
  rw [show c ++ [u, a] = (c ++ [u]) ++ [a] by simp]
  exact List.getLast?_concat _

theorem getLast?_drop_of_lt {α : Type} (l : List α) (k : Nat) (h : k < l.length) :
    (l.drop k).getLast? = l.getLast? := by
  induction l generalizing k with
  | nil => simp at h
  | cons x xs ih =>
    cases k with
    | zero => rfl
    | succ k2 =>
      have hk : k2 < xs.length := by simpa using h
      rw [List.drop_succ_cons, ih k2 hk]
      cases xs with
      | nil => simp at hk
      | cons y ys => rw [List.getLast?_cons_cons]

theorem getLast?_trimConv (m : Nat) (c : List ChatMsg) (u a : ChatMsg) (hm : 0 < m) :
    (trimConv m (c ++ [u, a])).getLast? = some a := by
  unfold trimConv
  split
  · rename_i h
    rw [getLast?_drop_of_lt _ _ (by
      simp only [List.length_append, List.length_cons, List.length_nil] at h ⊢
      omega)]
    exact getLast?_cons_append_two c u a
  · exact getLast?_cons_append_two c u a

theorem joinSep_head_length_le (sep x : String) (xs : List String) :
    x.length ≤ (joinSep sep (x :: xs)).length := by
  cases xs with
  | nil => exact le_refl _
  | cons y ys =>
    rw [show joinSep sep (x :: y :: ys) = x ++ sep ++ joinSep sep (y :: ys) from rfl]
    simp only [String.length_append]
    omega

/-- `_retrieve_context` returns a non-empty string exactly when retrieval
(top 6) found something: each chunk is rendered non-empty (it starts with
the bracketed category). -/
theorem retrieveContext_pos (e : ChatEngine) (message : String) :
    0 < (e.retrieveContext message).length
      ↔ (match e.kb with
          | some kb => kb.query message 6
          | none => []) ≠ [] := by
  unfold ChatEngine.retrieveContext
  cases e.kb with
  | none => simp
  | some kb =>
    cases hq : kb.query message 6 with
    | nil => simp [hq]
    | cons r rs =>
      have h1 := joinSep_head_length_le "\n\n" ("[" ++ r.metadata.category ++ "] " ++ r.text)
        (rs.map (fun r2 => "[" ++ r2.metadata.category ++ "] " ++ r2.text))
      have h2 : 0 < ("[" ++ r.metadata.category ++ "] " ++ r.text).length := by
        rw [String.length_append, String.length_append, String.length_append]
        have h3 : "[".length = 1 := rfl
        omega
      simp [hq]
      omega

/-! ## Claim theorems: chat turns -/

/-- C4.  For every engine state, message and session, the event sequence
yielded by `stream_chat` is the backend's token texts in arrival order —
with a connectivity failure during iteration contributing exactly one
trailing error-content token event — mapped to token events, followed by
exactly one terminal `done` event carrying the elapsed time and the model
identity; and the assistant turn recorded in session memory is the
concatenation of exactly those yielded texts. -/
theorem stream_chat_events (e : ChatEngine) (elapsed : ℚ) (message sid : String)
    (h : 0 < e.max_history) :
    (e.streamChat elapsed message sid).1
      = (streamTexts (e.llm.stream (e.promptFor message sid) SYSTEM_PROMPT)).map SSEvent.token
        ++ [SSEvent.done elapsed e.llm.model]
    ∧ ((e.streamChat elapsed message sid).2.conv sid).getLast?
      = some ⟨"assistant", e.streamText message sid⟩ := by
  constructor
  · rfl
  · simp only [ChatEngine.streamChat]
    rw [conv_setConv, if_pos rfl]
    exact getLast?_trimConv _ _ _ _ h

/-- C4 witness: the spec's scenario — a backend streaming
`["Great", " workout", "!"]` yields three token events then one completion
event, and the recorded assistant turn is `"Great workout!"`. -/
theorem stream_chat_events_witness :
    ((ChatEngine.mk (Backend.mk (fun _ _ => Except.ok "")
          (fun _ _ => (["Great", " workout", "!"], none)) "m1" "ollama") none [] 10).streamChat
        5 "Tell me" "s1").1
      = [SSEvent.token "Great", SSEvent.token " workout", SSEvent.token "!",
         SSEvent.done 5 "m1"]
    ∧ (((ChatEngine.mk (Backend.mk (fun _ _ => Except.ok "")
          (fun _ _ => (["Great", " workout", "!"], none)) "m1" "ollama") none [] 10).streamChat
        5 "Tell me" "s1").2.conv "s1").getLast?
      = some ⟨"assistant", "Great workout!"⟩ := by
  have h := stream_chat_events
    (ChatEngine.mk (Backend.mk (fun _ _ => Except.ok "")
      (fun _ _ => (["Great", " workout", "!"], none)) "m1" "ollama") none [] 10)
    5 "Tell me" "s1" (by norm_num)
  exact ⟨h.1.trans rfl, h.2.trans rfl⟩

/-- C5.  For the same message, session state and a deterministic backend
whose blocking generation equals the concatenation of its streamed tokens
(and whose stream raises no connection error), `chat` and `stream_chat`
produce the same final response text and leave the engine — in particular
the session memory — in the same state. -/
theorem chat_stream_agree (e : ChatEngine) (elapsed : ℚ) (message sid : String)
    (hok : (e.llm.stream (e.promptFor message sid) SYSTEM_PROMPT).2 = none)
    (hdet : e.llm.gen (e.promptFor message sid) SYSTEM_PROMPT
      = Except.ok (String.join (e.llm.stream (e.promptFor message sid) SYSTEM_PROMPT).1)) :
    (e.chat elapsed message sid).1.response = e.streamText message sid
    ∧ (e.chat elapsed message sid).2 = (e.streamChat elapsed message sid).2 := by
  have hresp : e.genText message sid = e.streamText message sid := by
    unfold ChatEngine.genText ChatEngine.streamText streamTexts
    rw [hdet, hok]
    simp
  constructor
  · exact hresp
  · simp only [ChatEngine.chat, ChatEngine.streamChat]
    rw [hresp]
    rfl

/-- C5 witness: a concrete deterministic backend (`"Great workout!"` both
ways); the two paths agree on the response text and the final state. -/
theorem chat_stream_agree_witness :
    ((ChatEngine.mk (Backend.mk (fun _ _ => Except.ok "Great workout!")
          (fun _ _ => (["Great", " workout", "!"], none)) "m1" "ollama") none [] 10).chat
        2 "hi" "s").1.response
      = (ChatEngine.mk (Backend.mk (fun _ _ => Except.ok "Great workout!")
          (fun _ _ => (["Great", " workout", "!"], none)) "m1" "ollama") none [] 10).streamText
        "hi" "s"
    ∧ ((ChatEngine.mk (Backend.mk (fun _ _ => Except.ok "Great workout!")
          (fun _ _ => (["Great", " workout", "!"], none)) "m1" "ollama") none [] 10).chat
        2 "hi" "s").2
      = ((ChatEngine.mk (Backend.mk (fun _ _ => Except.ok "Great workout!")
          (fun _ _ => (["Great", " workout", "!"], none)) "m1" "ollama") none [] 10).streamChat
        2 "hi" "s").2 :=
  chat_stream_agree
    (ChatEngine.mk (Backend.mk (fun _ _ => Except.ok "Great workout!")
      (fun _ _ => (["Great", " workout", "!"], none)) "m1" "ollama") none [] 10)
    2 "hi" "s" rfl rfl

/-- C2.  When the generation backend is unreachable — every blocking call
outcome is the typed connectivity failure `_ollama_generate` raises on
`requests.ConnectionError` — `chat` still returns a well-formed response
(it is a total function; the `except ConnectionError` handler substitutes
`str(e)`), whose text is the operator-facing remediation message, and whose
`context_used` flag reflects exactly whether retrieval found anything. -/
theorem chat_backend_down (e : ChatEngine) (elapsed : ℚ) (message sid : String)
    (hdown : ∀ p s, e.llm.gen p s = ollamaGenerate OllamaTransport.connRefused) :
    (e.chat elapsed message sid).1.response = ollamaRemediation
    ∧ ((e.chat elapsed message sid).1.context_used = true
        ↔ (match e.kb with
            | some kb => kb.query message 6
            | none => []) ≠ []) := by
  constructor
  · show e.genText message sid = _
    unfold ChatEngine.genText
    rw [hdown]
    rfl
  · show decide (0 < (e.retrieveContext message).length) = true ↔ _
    rw [decide_eq_true_iff]
    exact retrieveContext_pos e message

/-- C2 witness: an engine whose every generation attempt hits the
connection failure; `chat` answers with the remediation text and
`context_used = false` (no knowledge base attached). -/
theorem chat_backend_down_witness :
    ((ChatEngine.mk (Backend.mk (fun _ _ => ollamaGenerate OllamaTransport.connRefused)
          (fun _ _ => ([], none)) "llama3.2:3b" "ollama") none [] 10).chat
        3 "hi" "default").1.response = ollamaRemediation
    ∧ (((ChatEngine.mk (Backend.mk (fun _ _ => ollamaGenerate OllamaTransport.connRefused)
          (fun _ _ => ([], none)) "llama3.2:3b" "ollama") none [] 10).chat
        3 "hi" "default").1.context_used = true
        ↔ ([] : List QueryResult) ≠ []) :=
  chat_backend_down
    (ChatEngine.mk (Backend.mk (fun _ _ => ollamaGenerate OllamaTransport.connRefused)
      (fun _ _ => ([], none)) "llama3.2:3b" "ollama") none [] 10)
    3 "hi" "default" (fun _ _ => rfl)

/-- C7 as amended.  The `chunks_retrieved` field of `chat`'s response is the
length of a *fresh* `self.kb.query(message)` call with `query`'s default
`top_k = 8` — not the count of the retrieval step, which uses `top_k = 6` —
and `0` when no knowledge base is attached. -/
theorem chat_chunks_field (e : ChatEngine) (elapsed : ℚ) (message sid : String) :
    (e.chat elapsed message sid).1.chunks_retrieved
      = match e.kb with
        | some kb => (kb.query message 8).length
        | none => 0 := rfl

/-- A seven-document built index on which every document scores similarity
`1` for any question. -/
def kbSeven : KnowledgeBase :=
  ⟨["D0", "D1", "D2", "D3", "D4", "D5", "D6"],
   [⟨"c", "0"⟩, ⟨"c", "1"⟩, ⟨"c", "2"⟩, ⟨"c", "3"⟩, ⟨"c", "4"⟩, ⟨"c", "5"⟩, ⟨"c", "6"⟩],
   some (fun _ => [1]),
   some [[1], [1], [1], [1], [1], [1], [1]]⟩

/-- C7 counterexample.  With seven documents all above the floor, the
retrieval step of `chat` obtains 6 documents (`top_k = 6`), but the
returned `chunks_retrieved` is 7 (the fresh default-`top_k = 8` query) —
so `chunks_retrieved` does not equal the number of documents retrieved in
the retrieval step. -/
theorem chat_chunks_mismatch :
    ((ChatEngine.mk (Backend.mk (fun _ _ => Except.ok "ok") (fun _ _ => ([], none)) "m" "p")
        (some kbSeven) [] 10).chat 0 "q" "s").1.chunks_retrieved = 7
    ∧ (kbSeven.query "q" 6).length = 6
    ∧ (7 : Nat) ≠ 6 := by
  refine ⟨?_, ?_, by decide⟩
  · show (kbSeven.query "q" 8).length = 7
    norm_num +decide [kbSeven, KnowledgeBase.query, KnowledgeBase.queryIdx,
      KnowledgeBase.scoresFor, argsortDesc, argsortAsc, insertAsc, scoreAt, dot,
      List.range_succ]
  · norm_num +decide [kbSeven, KnowledgeBase.query, KnowledgeBase.queryIdx,
      KnowledgeBase.scoresFor, argsortDesc, argsortAsc, insertAsc, scoreAt, dot,
      List.range_succ]

end GymSpec
